import Mathlib

/-!
Verification of the NHP_Synth host-side Selection & Control Engine.

Shallow embedding of the Python source:
* `src/host/synth_control/synth_interface.py` — per-parameter device
  validation (`set_amplitude`, `set_frequency`, `set_phase`,
  `add_harmonic`, `clear_harmonics`);
* `src/host/synth_control/encoder_manager.py` — rotation handling
  (`handle_encoder_rotation`), button/hold handling
  (`handle_encoder_buttons`) and the selection-timeout sweep
  (`check_selection_timeouts`);
* `src/host/utils/command_queue.py` — `process_command_queue`;
* `src/host/synth_control/synth_state.py` — `SynthStateManager`
  save/load round trip.

Numeric values (Python floats) are modelled as rationals; `round(x, 2)`
is modelled by `round2`.  Device traffic is modelled as a list of
emitted commands; a device-side `ValueError` is an `Except.error`.
-/

namespace NHP

/-- The two output channels of a synth (`'a'` / `'b'` in the source). -/
inductive Chan where
  | a
  | b
deriving DecidableEq, Repr

/-- A command emitted on the UART transport by `SynthInterface`
(`wa…`, `wf…`, `wp…`, `wh…`, `whcl…`).  -/
inductive DevCmd where
  | setAmplitude (ch : Chan) (v : ℚ)
  | setFrequency (ch : Chan) (v : ℚ)
  | setPhase (ch : Chan) (v : ℚ)
  | addHarmonic (ch : Chan) (order : ℤ) (percent : ℚ) (phase : ℚ)
  | clearHarmonics (ch : Chan)
deriving DecidableEq, Repr

/-- Model of Python `round(float(x), 2)`: round to the nearest
hundredth (`synth` values are only ever compared against bounds that
are whole numbers, so the tie-breaking rule is irrelevant). -/
def round2 (x : ℚ) : ℚ := (round (x * 100) : ℤ) / 100

/-- `SynthInterface.set_amplitude` (synth_interface.py:137-153): raises
`ValueError` unless `0 <= amplitude <= 100`, else sends `wa<ch><v>`. -/
def set_amplitude (ch : Chan) (v : ℚ) : Except String DevCmd :=
  if 0 ≤ v ∧ v ≤ 100 then .ok (.setAmplitude ch v)
  else .error "Amplitude must be between 0 and 100"

/-- `SynthInterface.set_frequency` (synth_interface.py:95-111): raises
`ValueError` unless `20 <= frequency <= 8000`, else sends `wf<ch><v>`. -/
def set_frequency (ch : Chan) (v : ℚ) : Except String DevCmd :=
  if 20 ≤ v ∧ v ≤ 8000 then .ok (.setFrequency ch v)
  else .error "Frequency must be between 20 and 8000 Hz"

/-- `SynthInterface.set_phase` (synth_interface.py:179-193): raises
`ValueError` unless `-360 <= phase <= 360`, else sends `wp<ch><v>`. -/
def set_phase (ch : Chan) (v : ℚ) : Except String DevCmd :=
  if -360 ≤ v ∧ v ≤ 360 then .ok (.setPhase ch v)
  else .error "Phase must be between -360 and +360 degrees"

/-- `SynthInterface.add_harmonic` (synth_interface.py:242-265). -/
def add_harmonic (ch : Chan) (order : ℤ) (percent : ℚ) (phase : ℚ) :
    Except String DevCmd :=
  if order < 3 ∨ order % 2 = 0 then .error "Harmonic order must be odd and >= 3"
  else if ¬ (0 ≤ percent ∧ percent ≤ 100) then
    .error "Harmonic percent must be between 0 and 100"
  else if ¬ (-360 ≤ phase ∧ phase ≤ 360) then
    .error "Harmonic phase must be between -360 and +360 degrees"
  else .ok (.addHarmonic ch order percent phase)

/-- `SynthInterface.clear_harmonics` (synth_interface.py:267-280). -/
def clear_harmonics (ch : Chan) : Except String DevCmd :=
  .ok (.clearHarmonics ch)

/-- Sequential dispatch of device calls inside a `try:` block: commands
are sent in order until the first `ValueError`; the flag records
whether the whole sequence succeeded (no exception raised). -/
def sendAll {α : Type} : List (Except String α) → List α × Bool
  | [] => ([], true)
  | .ok c :: rest => ((sendAll rest).1.cons c, (sendAll rest).2)
  | .error _ :: _ => ([], false)

/-- One command attempt outside any loop: the sent-command list. -/
def cmdList {α : Type} : Except String α → List α
  | .ok c => [c]
  | .error _ => []

theorem sendAll_ok {α : Type} (l : List (Except String α))
    (h : ∀ e ∈ l, ∃ c, e = .ok c) : (sendAll l).2 = true := by
  induction l with
  | nil => rfl
  | cons e rest ih =>
    obtain ⟨c, hc⟩ := h e (List.mem_cons_self e rest)
    subst hc
    simpa [sendAll] using ih fun x hx => h x (List.mem_cons_of_mem _ hx)

theorem round_mono {x y : ℚ} (h : x ≤ y) : round x ≤ round y := by
  rw [round_eq, round_eq]
  exact Int.floor_le_floor (by linarith)

theorem round2_mem_Icc {lo hi : ℤ} {x : ℚ} (h1 : (lo : ℚ) ≤ x)
    (h2 : x ≤ (hi : ℚ)) : (lo : ℚ) ≤ round2 x ∧ round2 x ≤ (hi : ℚ) := by
  have hlo : (lo * 100 : ℤ) ≤ round (x * 100) := by
    have h := round_mono (x := ((lo * 100 : ℤ) : ℚ)) (y := x * 100)
      (by push_cast; exact mul_le_mul_of_nonneg_right h1 (by norm_num))
    rwa [round_intCast] at h
  have hhi : round (x * 100) ≤ (hi * 100 : ℤ) := by
    have h := round_mono (x := x * 100) (y := ((hi * 100 : ℤ) : ℚ))
      (by push_cast; exact mul_le_mul_of_nonneg_right h2 (by norm_num))
    rwa [round_intCast] at h
  unfold round2
  constructor
  · rw [le_div_iff₀ (by norm_num : (0:ℚ) < 100)]
    exact_mod_cast hlo
  · rw [div_le_iff₀ (by norm_num : (0:ℚ) < 100)]
    exact_mod_cast hhi

/-- A harmonic entry as kept by the encoder path
(`{'order': …, 'amplitude': …, 'phase': …}` dicts in
encoder_manager.py). -/
structure Harmonic where
  order : ℤ
  amplitude : ℚ
  phase : ℚ
deriving DecidableEq, Repr

/-- The parallel per-synth arrays mutated by `handle_encoder_rotation`
and `handle_encoder_buttons` (main loop state threaded into
EncoderManager). -/
structure CtrlState where
  amplitude_a : List ℚ
  amplitude_b : List ℚ
  frequency_a : List ℚ
  frequency_b : List ℚ
  phase_a : List ℚ
  phase_b : List ℚ
  harmonics_a : List (List Harmonic)
  harmonics_b : List (List Harmonic)
deriving DecidableEq, Repr

/-- The per-channel amplitude array (`amplitude_a` / `amplitude_b`). -/
def CtrlState.amp (s : CtrlState) : Chan → List ℚ
  | .a => s.amplitude_a
  | .b => s.amplitude_b

def CtrlState.setAmpArr (s : CtrlState) : Chan → List ℚ → CtrlState
  | .a, l => { s with amplitude_a := l }
  | .b, l => { s with amplitude_b := l }

/-- The per-channel phase array (`phase_a` / `phase_b`). -/
def CtrlState.ph (s : CtrlState) : Chan → List ℚ
  | .a => s.phase_a
  | .b => s.phase_b

def CtrlState.setPhArr (s : CtrlState) : Chan → List ℚ → CtrlState
  | .a, l => { s with phase_a := l }
  | .b, l => { s with phase_b := l }

/-- The per-channel harmonics array (`harmonics_a` / `harmonics_b`). -/
def CtrlState.harm (s : CtrlState) : Chan → List (List Harmonic)
  | .a => s.harmonics_a
  | .b => s.harmonics_b

def CtrlState.setHarmArr (s : CtrlState) : Chan → List (List Harmonic) → CtrlState
  | .a, l => { s with harmonics_a := l }
  | .b, l => { s with harmonics_b := l }

/-- `selection_mode[func]` values: `'all'` or `'individual'`. -/
inductive Mode where
  | all
  | individual
deriving DecidableEq, Repr

/-- The per-function selection record: `selection_mode[func]`,
`active_synth[func]`, `active_channel[func]`, `selection_time[func]`. -/
structure FuncSel where
  mode : Mode
  active_synth : ℕ
  active_channel : Chan
  selection_time : ℚ
deriving DecidableEq, Repr

/-- The `'amplitude_a'` / `'amplitude_b'` branches of
`EncoderManager.handle_encoder_rotation` (encoder_manager.py:197-222
for channel a, 223-248 for channel b; the two branches are textually
identical up to the channel).  Returns the updated arrays and the
device commands sent, tagged with the synth index. -/
def rotAmplitude (ch : Chan) (sel : FuncSel) (num_synths : ℕ) (delta : ℚ)
    (s : CtrlState) : CtrlState × List (ℕ × DevCmd) :=
  let delta_val := delta
  match sel.mode with
  | .all =>
    let new_vals := (List.range num_synths).map
      (fun i => (s.amp ch).getD i 0 + delta_val)
    if new_vals.all (fun val => decide (0 ≤ val ∧ val ≤ 100)) then
      let sent := sendAll ((List.range num_synths).map
        (fun i => (set_amplitude ch (round2 (new_vals.getD i 0))).map
          (fun c => (i, c))))
      if sent.2 then (s.setAmpArr ch new_vals, sent.1)
      else (s, sent.1)
    else (s, [])
  | .individual =>
    let synth_idx := sel.active_synth
    let new_val := max 0 (min 100 ((s.amp ch).getD synth_idx 0 + delta_val))
    match set_amplitude ch (round2 new_val) with
    | .ok c => (s.setAmpArr ch ((s.amp ch).set synth_idx new_val),
                [(synth_idx, c)])
    | .error _ => (s, [])

/-- The `'frequency'` branch of `EncoderManager.handle_encoder_rotation`
(encoder_manager.py:249-263): each candidate is clamped to `[20, 70]`,
commands are sent for both channels of every synth, then the arrays are
updated (inside one `try:`). -/
def rotFrequency (num_synths : ℕ) (delta : ℚ) (s : CtrlState) :
    CtrlState × List (ℕ × DevCmd) :=
  let delta_val := delta * (1 / 10)
  let new_freq_a := (List.range num_synths).map
    (fun i => max 20 (min 70 (s.frequency_a.getD i 0 + delta_val)))
  let new_freq_b := (List.range num_synths).map
    (fun i => max 20 (min 70 (s.frequency_b.getD i 0 + delta_val)))
  let sent := sendAll ((List.range num_synths).flatMap
    (fun i => [(set_frequency .a (round2 (new_freq_a.getD i 0))).map (fun c => (i, c)),
               (set_frequency .b (round2 (new_freq_b.getD i 0))).map (fun c => (i, c))]))
  if sent.2 then
    ({ s with frequency_a := new_freq_a, frequency_b := new_freq_b }, sent.1)
  else (s, sent.1)

/-- The `'phase'` branch of `EncoderManager.handle_encoder_rotation`
(encoder_manager.py:264-300).  In `'all'` mode only the `phase_b`
array is read, checked and written (the source computes `new_vals`
from `phase_b` and issues only `set_phase('b', …)`). -/
def rotPhase (sel : FuncSel) (num_synths : ℕ) (delta : ℚ)
    (s : CtrlState) : CtrlState × List (ℕ × DevCmd) :=
  let delta_val := delta
  match sel.mode with
  | .all =>
    let new_vals := (List.range num_synths).map
      (fun i => s.phase_b.getD i 0 + delta_val)
    if new_vals.all (fun val => decide (-360 ≤ val ∧ val ≤ 360)) then
      let sent := sendAll ((List.range num_synths).map
        (fun i => (set_phase .b (round2 (new_vals.getD i 0))).map
          (fun c => (i, c))))
      if sent.2 then ({ s with phase_b := new_vals }, sent.1)
      else (s, sent.1)
    else (s, [])
  | .individual =>
    let synth_idx := sel.active_synth
    let channel := sel.active_channel
    let new_val := max (-360) (min 360 ((s.ph channel).getD synth_idx 0 + delta_val))
    match set_phase channel (round2 new_val) with
    | .ok c => (s.setPhArr channel ((s.ph channel).set synth_idx new_val),
                [(synth_idx, c)])
    | .error _ => (s, [])

/-- The inner helper `update_harmonics_list` of the `'harmonics'`
rotation branch (encoder_manager.py:303-308): find the first entry
matching `(order, phase)` and clamp-add `delta_val` to its amplitude;
if none matches, append a fresh entry whose amplitude is the clamped
delta. -/
def update_harmonics_list (hlist : List Harmonic) (order : ℤ) (phase : ℚ)
    (delta_val : ℚ) : List Harmonic :=
  match hlist with
  | [] => [⟨order, max 0 (min 100 delta_val), phase⟩]
  | h :: rest =>
    if h.order = order ∧ h.phase = phase then
      { h with amplitude := max 0 (min 100 (h.amplitude + delta_val)) } :: rest
    else h :: update_harmonics_list rest order phase delta_val

/-- The `for h in hlist: update_harmonics_list(hlist, h['order'],
h['phase'], delta_val)` loop (encoder_manager.py:315-316 etc.): Python
iterates over the live list by index while updating it in place (the
in-place update never changes the length, since the key of an element
drawn from the list always matches some element). -/
def harmonicsPass (hlist : List Harmonic) (delta_val : ℚ) : List Harmonic :=
  (List.range hlist.length).foldl
    (fun acc idx =>
      let h := acc.getD idx ⟨0, 0, 0⟩
      update_harmonics_list acc h.order h.phase delta_val)
    hlist

/-- The seed list used when a channel's harmonic list is empty
(encoder_manager.py:311-314 for channel a with phase 0, 321-324 for
channel b with phase 180). -/
def defaultHarmonics : Chan → List Harmonic
  | .a => [⟨3, 0, 0⟩, ⟨5, 0, 0⟩]
  | .b => [⟨3, 0, 180⟩, ⟨5, 0, 180⟩]

/-- The per-synth, per-channel body of the `'harmonics'` rotation
branch (encoder_manager.py:311-320 / 321-330 / 336-345 / 348-357):
seed the list if empty, run the update pass, clear the device channel,
and re-add every entry whose amplitude is `> 0`. -/
def rotHarmonicsOne (ch : Chan) (delta_val : ℚ) (hlist : List Harmonic) :
    List Harmonic × List DevCmd :=
  let seeded := if hlist = [] then defaultHarmonics ch else hlist
  let updated := harmonicsPass seeded delta_val
  let cmds := cmdList (clear_harmonics ch) ++
    (updated.filter (fun h => decide (0 < h.amplitude))).flatMap
      (fun h => cmdList (add_harmonic ch h.order h.amplitude h.phase))
  (updated, cmds)

/-- The `'harmonics'` branch of `EncoderManager.handle_encoder_rotation`
(encoder_manager.py:301-358). -/
def rotHarmonics (sel : FuncSel) (num_synths : ℕ) (delta : ℚ)
    (s : CtrlState) : CtrlState × List (ℕ × DevCmd) :=
  let delta_val := delta
  match sel.mode with
  | .all =>
    (List.range num_synths).foldl
      (fun (acc : CtrlState × List (ℕ × DevCmd)) i =>
        let ra := rotHarmonicsOne .a delta_val (acc.1.harmonics_a.getD i [])
        let rb := rotHarmonicsOne .b delta_val (acc.1.harmonics_b.getD i [])
        ({ acc.1 with
            harmonics_a := acc.1.harmonics_a.set i ra.1,
            harmonics_b := acc.1.harmonics_b.set i rb.1 },
         acc.2 ++ (ra.2 ++ rb.2).map (fun c => (i, c))))
      (s, [])
  | .individual =>
    let synth_idx := sel.active_synth
    let channel := sel.active_channel
    let r := rotHarmonicsOne channel delta_val ((s.harm channel).getD synth_idx [])
    (s.setHarmArr channel ((s.harm channel).set synth_idx r.1),
     r.2.map (fun c => (synth_idx, c)))

/-- The five encoder functions. -/
inductive Func where
  | amplitude_a
  | amplitude_b
  | frequency
  | phase
  | harmonics
deriving DecidableEq, Repr

/-- One pass of `EncoderManager.handle_encoder_rotation` for one
function (encoder_manager.py:186-363).  The source function receives
`selection_mode`, `active_synth` and `active_channel` read-only and
neither receives nor writes `selection_time`; accordingly the
selection record is returned unchanged by every branch. -/
def rotateFunc (f : Func) (sel : FuncSel) (num_synths : ℕ) (delta : ℚ)
    (s : CtrlState) : FuncSel × CtrlState × List (ℕ × DevCmd) :=
  match f with
  | .amplitude_a => (sel, rotAmplitude .a sel num_synths delta s)
  | .amplitude_b => (sel, rotAmplitude .b sel num_synths delta s)
  | .frequency => (sel, rotFrequency num_synths delta s)
  | .phase => (sel, rotPhase sel num_synths delta s)
  | .harmonics => (sel, rotHarmonics sel num_synths delta s)

/-- One function's slice of `EncoderManager.check_selection_timeouts`
(encoder_manager.py:175-184): an `'individual'` mode whose
`selection_time` is more than `selection_timeout` old reverts to
`'all'`; the flag is the function's contribution to
`timeout_occurred`. -/
def check_timeout_one (current_time selection_timeout : ℚ)
    (sel : FuncSel) : FuncSel × Bool :=
  if sel.mode = .individual ∧ selection_timeout < current_time - sel.selection_time
  then ({ sel with mode := .all }, true)
  else (sel, false)

/-- Short-press cycling for `'amplitude_a'`/`'amplitude_b'`
(encoder_manager.py:129-142): `ALL → synth 0 → synth 1 → … →
synth (n-1) → ALL`, refreshing `selection_time` on each step that
stays individual. -/
def pressCycleSynthOnly (num_synths : ℕ) (now : ℚ) (sel : FuncSel) : FuncSel :=
  match sel.mode with
  | .all => { sel with mode := .individual, active_synth := 0, selection_time := now }
  | .individual =>
    if sel.active_synth < num_synths - 1 then
      { sel with active_synth := sel.active_synth + 1, selection_time := now }
    else { sel with mode := .all }

/-- Short-press cycling for `'phase'`/`'harmonics'`
(encoder_manager.py:143-163): `ALL → (0,a) → (0,b) → (1,a) → … →
(n-1,b) → ALL`. -/
def pressCycleSynthChan (num_synths : ℕ) (now : ℚ) (sel : FuncSel) : FuncSel :=
  match sel.mode with
  | .all =>
    { sel with mode := .individual, active_synth := 0, active_channel := .a,
               selection_time := now }
  | .individual =>
    if sel.active_channel = .a then
      { sel with active_channel := .b, selection_time := now }
    else if sel.active_synth < num_synths - 1 then
      { sel with active_channel := .a, active_synth := sel.active_synth + 1,
                 selection_time := now }
    else { sel with mode := .all }

/-- Per-function button bookkeeping: `button_pressed[func]`,
`button_press_time[func]`, `EncoderManager.was_held[func]`,
`EncoderManager.block_release[func]`. -/
structure ButtonState where
  pressed : Bool
  press_time : ℚ
  was_held : Bool
  block_release : Bool
deriving DecidableEq, Repr

/-- One `handle_encoder_buttons` pass for `func = 'amplitude_b'`
(encoder_manager.py:35-45, 58-68, 119-142).  `btnDown` is
`not button.value` (the physical button is depressed); `defaults i`
is `get_default_for_synth(i, 'amplitude_b')`.  In the hold branch the
`'all'` case sends the rounded default while the `'individual'` case
sends the raw default, exactly as in the source (lines 62 vs 67). -/
def tickButtonAmplitudeB (btnDown : Bool) (now hold_threshold : ℚ)
    (defaults : ℕ → ℚ) (num_synths : ℕ) (b : ButtonState) (sel : FuncSel)
    (s : CtrlState) : ButtonState × FuncSel × CtrlState × List (ℕ × DevCmd) :=
  if btnDown && !b.pressed then
    ({ b with pressed := true, press_time := now, was_held := false }, sel, s, [])
  else if btnDown && b.pressed then
    let hold_duration := now - b.press_time
    if hold_threshold ≤ hold_duration then
      let b' : ButtonState :=
        { b with pressed := false, was_held := true, block_release := true }
      match sel.mode with
      | .all =>
        let r := (List.range num_synths).foldl
          (fun (acc : CtrlState × List (ℕ × DevCmd)) i =>
            (acc.1.setAmpArr .b (acc.1.amplitude_b.set i (defaults i)),
             acc.2 ++ (cmdList (set_amplitude .b (round2 (defaults i)))).map
               (fun c => (i, c))))
          (s, [])
        (b', sel, r.1, r.2)
      | .individual =>
        let synth_idx := sel.active_synth
        (b', sel,
         s.setAmpArr .b (s.amplitude_b.set synth_idx (defaults synth_idx)),
         (cmdList (set_amplitude .b (defaults synth_idx))).map
           (fun c => (synth_idx, c)))
    else (b, sel, s, [])
  else if !btnDown && b.pressed then
    let hold_duration := now - b.press_time
    let b' : ButtonState := { b with pressed := false }
    if b.block_release then
      ({ b' with block_release := false, was_held := false }, sel, s, [])
    else if hold_duration < hold_threshold then
      (b', pressCycleSynthOnly num_synths now sel, s, [])
    else (b', sel, s, [])
  else (b, sel, s, [])

/-- A harmonic entry as kept by `SynthStateManager` and the external
command queue (`{'id': …, 'order': …, 'amplitude': …, 'phase': …}`). -/
structure StoredHarmonic where
  id : ℤ
  order : ℤ
  amplitude : ℚ
  phase : ℚ
deriving DecidableEq, Repr

/-- One per-synth record of `SynthStateManager.synths`
(`state_manager.synths[synth_id]` in command_queue.py). -/
structure QSynth where
  amplitude_a : ℚ
  amplitude_b : ℚ
  frequency_a : ℚ
  frequency_b : ℚ
  phase_a : ℚ
  phase_b : ℚ
  harmonics_a : List StoredHarmonic
  harmonics_b : List StoredHarmonic
deriving DecidableEq, Repr

def QSynth.default : QSynth := ⟨0, 0, 0, 0, 0, 0, [], []⟩

def QSynth.setAmpQ (q : QSynth) : Chan → ℚ → QSynth
  | .a, v => { q with amplitude_a := v }
  | .b, v => { q with amplitude_b := v }

def QSynth.setFreqQ (q : QSynth) : Chan → ℚ → QSynth
  | .a, v => { q with frequency_a := v }
  | .b, v => { q with frequency_b := v }

def QSynth.setPhaseQ (q : QSynth) : Chan → ℚ → QSynth
  | .a, v => { q with phase_a := v }
  | .b, v => { q with phase_b := v }

/-- The `command` field of a queue entry, for the three scalar
commands handled by `process_command_queue` (the `set_harmonics`
branch operates on the id-keyed harmonic lists and is settled on the
encoder path instead). -/
inductive QCommand where
  | setAmplitude
  | setFrequency
  | setPhase
deriving DecidableEq, Repr

/-- One queue entry `{synth_id, command, channel, value}`. -/
structure QCmd where
  synth_id : ℤ
  command : QCommand
  channel : Chan
  value : ℚ
deriving DecidableEq, Repr

/-- One iteration of `process_command_queue` for a scalar command
(command_queue.py:12-32): the guard `0 <= synth_id < len(synths)` is
checked, the `SynthInterface` setter is called first (raising
`ValueError` on a bound violation, caught by the surrounding
`except`, in which case nothing was mutated), then the in-memory
state is updated. -/
def processQueueCmd (cmd : QCmd) (synths : List QSynth) :
    List QSynth × List (ℕ × DevCmd) :=
  if 0 ≤ cmd.synth_id ∧ cmd.synth_id < synths.length then
    let k := cmd.synth_id.toNat
    let q := synths.getD k QSynth.default
    match cmd.command with
    | .setAmplitude =>
      match set_amplitude cmd.channel cmd.value with
      | .ok c => (synths.set k (q.setAmpQ cmd.channel cmd.value), [(k, c)])
      | .error _ => (synths, [])
    | .setFrequency =>
      match set_frequency cmd.channel cmd.value with
      | .ok c => (synths.set k (q.setFreqQ cmd.channel cmd.value), [(k, c)])
      | .error _ => (synths, [])
    | .setPhase =>
      match set_phase cmd.channel cmd.value with
      | .ok c => (synths.set k (q.setPhaseQ cmd.channel cmd.value), [(k, c)])
      | .error _ => (synths, [])
  else (synths, [])

/-- The persistent fields of `SynthStateManager`
(synth_state.py): `num_synths` and `synths`. -/
structure MgrSnapshot where
  num_synths : ℕ
  synths : List QSynth
deriving DecidableEq, Repr

/-- `SynthStateManager.save_state` (synth_state.py:71-77): dumps
`{'num_synths': …, 'synths': …}` to the state file (the file is
modelled as the parsed record; `some` because the write succeeded). -/
def save_state (m : MgrSnapshot) : Option MgrSnapshot :=
  some ⟨m.num_synths, m.synths⟩

/-- `SynthStateManager.load_state` (synth_state.py:79-102): a missing
file falls back to the defaults; otherwise both keys are present in a
record produced by `save_state`, `num_synths` is recomputed as
`len(self.synths)` (line 93), and the harmonic-list normalization
(lines 95-98) is the identity because the typed record's harmonic
fields are already lists. -/
def load_state (defaults : List QSynth) (file : Option MgrSnapshot) :
    MgrSnapshot :=
  match file with
  | none => ⟨defaults.length, defaults⟩
  | some st => ⟨st.synths.length, st.synths⟩

/-! ## Helper lemmas -/

theorem sendAll_length {α : Type} (l : List (Except String α))
    (h : ∀ e ∈ l, ∃ c, e = .ok c) : (sendAll l).1.length = l.length := by
  induction l with
  | nil => rfl
  | cons e rest ih =>
    obtain ⟨c, hc⟩ := h e (List.mem_cons_self e rest)
    subst hc
    simpa [sendAll] using ih fun x hx => h x (List.mem_cons_of_mem _ hx)

theorem getD_range_map {α : Type} (f : ℕ → α) {n i : ℕ} (h : i < n) (d : α) :
    ((List.range n).map f).getD i d = f i := by
  simp [List.getD_eq_getElem?_getD, List.getElem?_map, List.getElem?_range h]

theorem amp_setAmpArr (s : CtrlState) (ch : Chan) (l : List ℚ) :
    (s.setAmpArr ch l).amp ch = l := by
  cases ch <;> rfl

theorem ph_setPhArr (s : CtrlState) (ch : Chan) (l : List ℚ) :
    (s.setPhArr ch l).ph ch = l := by
  cases ch <;> rfl

theorem clamp_mem {lo hi x : ℚ} (h : lo ≤ hi) :
    lo ≤ max lo (min hi x) ∧ max lo (min hi x) ≤ hi :=
  ⟨le_max_left _ _, max_le h (min_le_left _ _)⟩

theorem set_amplitude_round2_ok (ch : Chan) {v : ℚ} (h1 : 0 ≤ v)
    (h2 : v ≤ 100) :
    set_amplitude ch (round2 v) = .ok (.setAmplitude ch (round2 v)) := by
  have hr := @round2_mem_Icc 0 100 v
    (by exact_mod_cast h1) (by exact_mod_cast h2)
  unfold set_amplitude
  rw [if_pos]
  exact ⟨by exact_mod_cast hr.1, by exact_mod_cast hr.2⟩

theorem set_phase_round2_ok (ch : Chan) {v : ℚ} (h1 : -360 ≤ v)
    (h2 : v ≤ 360) :
    set_phase ch (round2 v) = .ok (.setPhase ch (round2 v)) := by
  have hr := @round2_mem_Icc (-360) 360 v
    (by exact_mod_cast h1) (by exact_mod_cast h2)
  unfold set_phase
  rw [if_pos]
  exact ⟨by exact_mod_cast hr.1, by exact_mod_cast hr.2⟩

theorem set_frequency_round2_ok (ch : Chan) {v : ℚ} (h1 : 20 ≤ v)
    (h2 : v ≤ 70) :
    set_frequency ch (round2 v) = .ok (.setFrequency ch (round2 v)) := by
  have hr := @round2_mem_Icc 20 70 v
    (by exact_mod_cast h1) (by exact_mod_cast h2)
  unfold set_frequency
  rw [if_pos]
  refine ⟨by exact_mod_cast hr.1, ?_⟩
  have h70 : round2 v ≤ (70 : ℚ) := by exact_mod_cast hr.2
  linarith

/-! ## Claims -/

/-- C1: an `ALL`-mode amplitude rotation (channel a or b) is
all-or-nothing: if any synth's `amplitude + delta` leaves `[0, 100]`,
no stored amplitude changes and no device command is sent; otherwise
every synth's stored amplitude becomes its old value plus the delta. -/
theorem C1_amplitude_all_atomic (ch : Chan) (sel : FuncSel)
    (num_synths : ℕ) (delta : ℚ) (s : CtrlState)
    (hmode : sel.mode = .all) :
    ((∃ i < num_synths, ¬ (0 ≤ (s.amp ch).getD i 0 + delta ∧
        (s.amp ch).getD i 0 + delta ≤ 100)) →
      rotAmplitude ch sel num_synths delta s = (s, [])) ∧
    ((∀ i < num_synths, 0 ≤ (s.amp ch).getD i 0 + delta ∧
        (s.amp ch).getD i 0 + delta ≤ 100) →
      ∀ i < num_synths,
        ((rotAmplitude ch sel num_synths delta s).1.amp ch).getD i 0 =
          (s.amp ch).getD i 0 + delta) := by
  obtain ⟨mode, asyn, achan, stime⟩ := sel
  simp only at hmode
  subst hmode
  constructor
  · rintro ⟨i, hi, hbad⟩
    have hguard : (((List.range num_synths).map
        (fun i => (s.amp ch).getD i 0 + delta)).all
        (fun val => decide (0 ≤ val ∧ val ≤ 100))) = false := by
      rw [List.all_eq_false]
      exact ⟨(s.amp ch).getD i 0 + delta,
        List.mem_map_of_mem _ (List.mem_range.mpr hi), by simpa using hbad⟩
    simp only [rotAmplitude, hguard]
    rfl
  · intro hgood i hi
    have hguard : (((List.range num_synths).map
        (fun i => (s.amp ch).getD i 0 + delta)).all
        (fun val => decide (0 ≤ val ∧ val ≤ 100))) = true := by
      rw [List.all_eq_true]
      intro v hv
      rw [List.mem_map] at hv
      obtain ⟨j, hj, rfl⟩ := hv
      exact decide_eq_true (hgood j (List.mem_range.mp hj))
    have hsend : (sendAll ((List.range num_synths).map
        (fun j => (set_amplitude ch (round2 (((List.range num_synths).map
          (fun i => (s.amp ch).getD i 0 + delta)).getD j 0))).map
          (fun c => (j, c))))).2 = true := by
      apply sendAll_ok
      intro e he
      rw [List.mem_map] at he
      obtain ⟨j, hj, rfl⟩ := he
      have hjn := List.mem_range.mp hj
      have hb := hgood j hjn
      rw [getD_range_map _ hjn, set_amplitude_round2_ok ch hb.1 hb.2]
      exact ⟨_, rfl⟩
    simp only [rotAmplitude, hguard, hsend, if_true]
    rw [amp_setAmpArr, getD_range_map _ hi]

/-- C5: for the harmonics function with 3 synths the short-press cycle,
starting from `ALL`, visits the 7 distinct states
`ALL, (0,a), (0,b), (1,a), (1,b), (2,a), (2,b)` in order and the 7th
press wraps the mode back to `ALL`. -/
theorem C5_harmonics_press_cycle :
    ((List.range 7).map (fun k =>
        (fun sel => ((pressCycleSynthChan 3 7 sel : FuncSel).mode,
          (pressCycleSynthChan 3 7 sel).active_synth,
          (pressCycleSynthChan 3 7 sel).active_channel))
          ((pressCycleSynthChan 3 7)^[k] ⟨.all, 0, .a, 0⟩))) =
      [(.individual, 0, .a), (.individual, 0, .b), (.individual, 1, .a),
       (.individual, 1, .b), (.individual, 2, .a), (.individual, 2, .b),
       (.all, 2, .b)] ∧
    ((List.range 7).map (fun k =>
        (fun (sel : FuncSel) => (sel.mode, sel.active_synth, sel.active_channel))
          ((pressCycleSynthChan 3 7)^[k] ⟨.all, 0, .a, 0⟩))) =
      [(.all, 0, .a), (.individual, 0, .a), (.individual, 0, .b),
       (.individual, 1, .a), (.individual, 1, .b), (.individual, 2, .a),
       (.individual, 2, .b)] ∧
    ((List.range 7).map (fun k =>
        (fun (sel : FuncSel) => (sel.mode, sel.active_synth, sel.active_channel))
          ((pressCycleSynthChan 3 7)^[k] ⟨.all, 0, .a, 0⟩))).Nodup ∧
    ((pressCycleSynthChan 3 7)^[7] ⟨.all, 0, .a, 0⟩).mode = .all := by
  decide

theorem C1_amplitude_all_atomic_witness :
    rotAmplitude .a ⟨.all, 0, .a, 0⟩ 3 5
        ⟨[98, 50, 50], [50, 50, 50], [50, 50, 50], [50, 50, 50],
         [0, 0, 0], [0, 0, 0], [[], [], []], [[], [], []]⟩ =
      (⟨[98, 50, 50], [50, 50, 50], [50, 50, 50], [50, 50, 50],
        [0, 0, 0], [0, 0, 0], [[], [], []], [[], [], []]⟩, []) ∧
    ∀ i < 3, ((rotAmplitude .a ⟨.all, 0, .a, 0⟩ 3 (-5)
        ⟨[98, 50, 50], [50, 50, 50], [50, 50, 50], [50, 50, 50],
         [0, 0, 0], [0, 0, 0], [[], [], []], [[], [], []]⟩).1.amp .a).getD i 0 =
      ((⟨[98, 50, 50], [50, 50, 50], [50, 50, 50], [50, 50, 50],
         [0, 0, 0], [0, 0, 0], [[], [], []], [[], [], []]⟩ :
           CtrlState).amp .a).getD i 0 + (-5) :=
  ⟨(C1_amplitude_all_atomic .a ⟨.all, 0, .a, 0⟩ 3 5 _ rfl).1
      ⟨0, by norm_num, by norm_num [CtrlState.amp]⟩,
   (C1_amplitude_all_atomic .a ⟨.all, 0, .a, 0⟩ 3 (-5) _ rfl).2
      (by intro i hi; interval_cases i <;> norm_num [CtrlState.amp])⟩

/-- C2 fails on the code: in `ALL` mode the phase rotation applies the
delta only to channel b of every synth (encoder_manager.py:267-273
reads, checks and writes only `phase_b`).  With one synth at phase 0
on both channels and delta 10, channel b becomes 10 but channel a
stays 0, so the delta is applied to a proper subset of the claimed
all-synths/both-channels scope. -/
theorem C2_phase_all_counterexample :
    (rotPhase ⟨.all, 0, .a, 0⟩ 1 10
        ⟨[50], [50], [50], [50], [0], [0], [[]], [[]]⟩).1.phase_b = [10] ∧
    (rotPhase ⟨.all, 0, .a, 0⟩ 1 10
        ⟨[50], [50], [50], [50], [0], [0], [[]], [[]]⟩).1.phase_a ≠ [10] := by
  norm_num [rotPhase, round2, sendAll, set_phase, List.range_succ]

/-- C2 amended: an `ALL`-mode rotation of the phase function applies
the delta to `phase_b` of every synth (when every candidate stays in
`[-360, 360]`) and leaves every `phase_a` unchanged. -/
theorem C2_phase_all_amended (sel : FuncSel) (num_synths : ℕ) (delta : ℚ)
    (s : CtrlState) (hmode : sel.mode = .all)
    (hgood : ∀ i < num_synths, -360 ≤ s.phase_b.getD i 0 + delta ∧
      s.phase_b.getD i 0 + delta ≤ 360) :
    (∀ i < num_synths,
      (rotPhase sel num_synths delta s).1.phase_b.getD i 0 =
        s.phase_b.getD i 0 + delta) ∧
    (rotPhase sel num_synths delta s).1.phase_a = s.phase_a := by
  obtain ⟨mode, asyn, achan, stime⟩ := sel
  simp only at hmode
  subst hmode
  have hguard : (((List.range num_synths).map
      (fun i => s.phase_b.getD i 0 + delta)).all
      (fun val => decide (-360 ≤ val ∧ val ≤ 360))) = true := by
    rw [List.all_eq_true]
    intro v hv
    rw [List.mem_map] at hv
    obtain ⟨j, hj, rfl⟩ := hv
    exact decide_eq_true (hgood j (List.mem_range.mp hj))
  have hsend : (sendAll ((List.range num_synths).map
      (fun j => (set_phase .b (round2 (((List.range num_synths).map
        (fun i => s.phase_b.getD i 0 + delta)).getD j 0))).map
        (fun c => (j, c))))).2 = true := by
    apply sendAll_ok
    intro e he
    rw [List.mem_map] at he
    obtain ⟨j, hj, rfl⟩ := he
    have hjn := List.mem_range.mp hj
    have hb := hgood j hjn
    rw [getD_range_map _ hjn, set_phase_round2_ok .b hb.1 hb.2]
    exact ⟨_, rfl⟩
  constructor
  · intro i hi
    simp only [rotPhase, hguard, hsend, if_true]
    rw [getD_range_map _ hi]
  · simp only [rotPhase, hguard, hsend, if_true]

theorem C2_phase_all_amended_witness :
    (∀ i < 1, (rotPhase ⟨.all, 0, .a, 0⟩ 1 10
        ⟨[50], [50], [50], [50], [0], [0], [[]], [[]]⟩).1.phase_b.getD i 0 =
      ((⟨[50], [50], [50], [50], [0], [0], [[]], [[]]⟩ :
        CtrlState).phase_b.getD i 0 + 10)) ∧
    (rotPhase ⟨.all, 0, .a, 0⟩ 1 10
        ⟨[50], [50], [50], [50], [0], [0], [[]], [[]]⟩).1.phase_a =
      (⟨[50], [50], [50], [50], [0], [0], [[]], [[]]⟩ : CtrlState).phase_a :=
  C2_phase_all_amended ⟨.all, 0, .a, 0⟩ 1 10 _ rfl
    (by intro i hi; interval_cases i; norm_num)

theorem length_flatMap_pair {α β : Type} (l : List α) (f g : α → List β)
    (h : ∀ x ∈ l, (f x).length = 1 ∧ (g x).length = 1) :
    (l.flatMap (fun i => f i ++ g i)).length = 2 * l.length := by
  induction l with
  | nil => rfl
  | cons x xs ih =>
    have hx := h x (List.mem_cons_self x xs)
    rw [List.flatMap_cons, List.length_append, List.length_append,
      ih fun y hy => h y (List.mem_cons_of_mem _ hy), hx.1, hx.2]
    simp [List.length_cons]
    ring

/-- C3 fails on the code: the frequency rotation clamps each candidate
into `[20, 70]` (encoder_manager.py:251-252) instead of rejecting
atomically.  With one synth at 25 Hz and delta −100 (candidate 15 Hz,
below the accepted minimum of 20 Hz), the stored frequencies change to
the clamped boundary 20 Hz and device commands are sent — not the
claimed "no change, no command". -/
theorem C3_frequency_counterexample :
    ((⟨[50], [50], [25], [25], [0], [0], [[]], [[]]⟩ :
        CtrlState).frequency_a.getD 0 0 + (-100) * (1 / 10) < 20) ∧
    (rotFrequency 1 (-100)
        ⟨[50], [50], [25], [25], [0], [0], [[]], [[]]⟩).1.frequency_a = [20] ∧
    (rotFrequency 1 (-100)
        ⟨[50], [50], [25], [25], [0], [0], [[]], [[]]⟩).1.frequency_b = [20] ∧
    (rotFrequency 1 (-100)
        ⟨[50], [50], [25], [25], [0], [0], [[]], [[]]⟩).2 ≠ [] := by
  norm_num [rotFrequency, round2, sendAll, set_frequency, List.range_succ,
    max_def, min_def]
  exact List.cons_ne_nil _ _

/-- C3 amended: the frequency rotation clamps every candidate
`old + delta·0.1` into `[20, 70]`, always stores the clamped values and
always sends both channels' `set_frequency` commands for every synth
(2·num commands); there is no atomic-rejection path. -/
theorem C3_frequency_clamped (num_synths : ℕ) (delta : ℚ) (s : CtrlState) :
    (∀ i < num_synths,
      (rotFrequency num_synths delta s).1.frequency_a.getD i 0 =
        max 20 (min 70 (s.frequency_a.getD i 0 + delta * (1 / 10))) ∧
      (rotFrequency num_synths delta s).1.frequency_b.getD i 0 =
        max 20 (min 70 (s.frequency_b.getD i 0 + delta * (1 / 10)))) ∧
    (rotFrequency num_synths delta s).2.length = 2 * num_synths := by
  have hok : ∀ e ∈ (List.range num_synths).flatMap
      (fun i => [(set_frequency .a (round2 (((List.range num_synths).map
          (fun i => max 20 (min 70 (s.frequency_a.getD i 0 + delta * (1 / 10))))).getD i 0))).map
          (fun c => (i, c)),
        (set_frequency .b (round2 (((List.range num_synths).map
          (fun i => max 20 (min 70 (s.frequency_b.getD i 0 + delta * (1 / 10))))).getD i 0))).map
          (fun c => (i, c))]), ∃ c, e = .ok c := by
    intro e he
    rw [List.mem_flatMap] at he
    obtain ⟨j, hj, hme⟩ := he
    have hjn := List.mem_range.mp hj
    have hca := @clamp_mem 20 70
      (s.frequency_a.getD j 0 + delta * (1 / 10)) (by norm_num)
    have hcb := @clamp_mem 20 70
      (s.frequency_b.getD j 0 + delta * (1 / 10)) (by norm_num)
    simp only [List.mem_cons, List.not_mem_nil, or_false] at hme
    rcases hme with rfl | rfl
    · rw [getD_range_map _ hjn, set_frequency_round2_ok .a hca.1 hca.2]
      exact ⟨_, rfl⟩
    · rw [getD_range_map _ hjn, set_frequency_round2_ok .b hcb.1 hcb.2]
      exact ⟨_, rfl⟩
  have hsend := sendAll_ok _ hok
  constructor
  · intro i hi
    simp only [rotFrequency, hsend, if_true]
    rw [getD_range_map _ hi, getD_range_map _ hi]
    exact ⟨rfl, rfl⟩
  · simp only [rotFrequency, hsend, if_true]
    rw [sendAll_length _ hok]
    have := length_flatMap_pair (List.range num_synths)
      (fun i => [(set_frequency .a (round2 (((List.range num_synths).map
          (fun i => max 20 (min 70 (s.frequency_a.getD i 0 + delta * (1 / 10))))).getD i 0))).map
          (fun c => (i, c))])
      (fun i => [(set_frequency .b (round2 (((List.range num_synths).map
          (fun i => max 20 (min 70 (s.frequency_b.getD i 0 + delta * (1 / 10))))).getD i 0))).map
          (fun c => (i, c))])
      (fun x _ => ⟨rfl, rfl⟩)
    simpa [List.length_range] using this

theorem C3_frequency_clamped_witness :
    (rotFrequency 1 (-100)
        ⟨[50], [50], [25], [25], [0], [0], [[]], [[]]⟩).1.frequency_a.getD 0 0 =
      max 20 (min 70 ((⟨[50], [50], [25], [25], [0], [0], [[]], [[]]⟩ :
        CtrlState).frequency_a.getD 0 0 + (-100) * (1 / 10))) ∧
    (rotFrequency 1 (-100)
        ⟨[50], [50], [25], [25], [0], [0], [[]], [[]]⟩).2.length = 2 * 1 :=
  ⟨((C3_frequency_clamped 1 (-100) _).1 0 (by norm_num)).1,
   (C3_frequency_clamped 1 (-100) _).2⟩

/-- C4 fails on the code: `handle_encoder_rotation`
(encoder_manager.py:186-363) never receives or writes
`selection_time`, so a rotation event does not refresh the
`last_changed` timestamp.  Concretely: with amplitude_a in
`INDIVIDUAL` mode and `last_changed = 0`, a rotation that does update
the stored amplitude leaves the selection record (including
`selection_time = 0`) untouched, and the next timeout sweep at
`now = 61` with a 60 s window still reverts the function to `ALL` —
the rotation did not prevent the reversion. -/
theorem C4_rotation_refresh_counterexample :
    (rotateFunc .amplitude_a ⟨.individual, 0, .a, 0⟩ 1 1
        ⟨[50], [50], [50], [50], [0], [0], [[]], [[]]⟩).2.1.amplitude_a = [51] ∧
    (rotateFunc .amplitude_a ⟨.individual, 0, .a, 0⟩ 1 1
        ⟨[50], [50], [50], [50], [0], [0], [[]], [[]]⟩).1 =
      ⟨.individual, 0, .a, 0⟩ ∧
    check_timeout_one 61 60
        (rotateFunc .amplitude_a ⟨.individual, 0, .a, 0⟩ 1 1
          ⟨[50], [50], [50], [50], [0], [0], [[]], [[]]⟩).1 =
      (⟨.all, 0, .a, 0⟩, true) := by
  refine ⟨?_, rfl, ?_⟩
  · norm_num [rotateFunc, rotAmplitude, round2, set_amplitude,
      CtrlState.amp, CtrlState.setAmpArr, max_def, min_def]
  · norm_num [check_timeout_one, rotateFunc]

/-- C4 amended: for the four cycle-capable functions the timeout sweep
reverts an `INDIVIDUAL` mode to `ALL` exactly when
`now − last_changed > timeout`; but rotation does **not** refresh
`last_changed` — the rotation handler returns the selection record
unchanged for every function — so reversion is not prevented by
ongoing rotation. -/
theorem C4_timeout_exact_rotation_no_refresh :
    (∀ now timeout : ℚ, ∀ sel : FuncSel,
      (check_timeout_one now timeout sel).2 = true ↔
        (sel.mode = .individual ∧ timeout < now - sel.selection_time)) ∧
    (∀ now timeout : ℚ, ∀ sel : FuncSel,
      ((check_timeout_one now timeout sel).1.mode = .all ↔
        (sel.mode = .all ∨ timeout < now - sel.selection_time))) ∧
    (∀ (f : Func) (sel : FuncSel) (num_synths : ℕ) (delta : ℚ)
      (s : CtrlState), (rotateFunc f sel num_synths delta s).1 = sel) := by
  refine ⟨?_, ?_, ?_⟩
  · intro now timeout sel
    unfold check_timeout_one
    split_ifs with h
    · simpa using h
    · simpa using h
  · intro now timeout sel
    unfold check_timeout_one
    split_ifs with h
    · simp [h.2]
    · rw [not_and_or] at h
      cases hm : sel.mode with
      | all => simp [hm]
      | individual =>
        rcases h with h | h
        · exact absurd hm h
        · simp [hm, h]
  · intro f sel num_synths delta s
    cases f <;> rfl

/-- C6: a hold of the amplitude_b encoder past the threshold while in
`INDIVIDUAL` mode targeting synth `k` resets only synth `k`'s
amplitude_b to its default; every other synth's amplitude_b, all
amplitude_a values and all other parameters are unchanged, and the
selection record is untouched by the hold and by the release that
follows (the release is blocked by `block_release`, after the
still-held button re-arms `button_pressed`). -/
theorem C6_hold_amplitude_b_individual (now now2 now3 hold_threshold : ℚ)
    (defaults : ℕ → ℚ) (num_synths : ℕ) (b : ButtonState) (sel : FuncSel)
    (s : CtrlState) (hmode : sel.mode = .individual)
    (hpressed : b.pressed = true)
    (hheld : hold_threshold ≤ now - b.press_time)
    (hk : sel.active_synth < s.amplitude_b.length) :
    let r := tickButtonAmplitudeB true now hold_threshold defaults
      num_synths b sel s
    let r2 := tickButtonAmplitudeB true now2 hold_threshold defaults
      num_synths r.1 r.2.1 r.2.2.1
    let r3 := tickButtonAmplitudeB false now3 hold_threshold defaults
      num_synths r2.1 r2.2.1 r2.2.2.1
    r.2.2.1.amplitude_b.getD sel.active_synth 0 = defaults sel.active_synth ∧
    (∀ j, j ≠ sel.active_synth →
      r.2.2.1.amplitude_b.getD j 0 = s.amplitude_b.getD j 0) ∧
    r.2.2.1.amplitude_a = s.amplitude_a ∧
    r.2.2.1.frequency_a = s.frequency_a ∧
    r.2.2.1.frequency_b = s.frequency_b ∧
    r.2.2.1.phase_a = s.phase_a ∧
    r.2.2.1.phase_b = s.phase_b ∧
    r.2.2.1.harmonics_a = s.harmonics_a ∧
    r.2.2.1.harmonics_b = s.harmonics_b ∧
    r.2.1 = sel ∧
    r3.2.1 = sel ∧
    r3.2.2.1 = r.2.2.1 := by
  obtain ⟨mode, asyn, achan, stime⟩ := sel
  simp only at hmode hk ⊢
  subst hmode
  obtain ⟨pressed, ptime, wheld, brel⟩ := b
  simp only at hpressed hheld
  subst hpressed
  have hr : tickButtonAmplitudeB true now hold_threshold defaults
      num_synths ⟨true, ptime, wheld, brel⟩
      ⟨.individual, asyn, achan, stime⟩ s =
      (⟨false, ptime, true, true⟩, ⟨.individual, asyn, achan, stime⟩,
       s.setAmpArr .b (s.amplitude_b.set asyn (defaults asyn)),
       (cmdList (set_amplitude .b (defaults asyn))).map (fun c => (asyn, c))) := by
    unfold tickButtonAmplitudeB
    simp only [Bool.and_self, Bool.not_true, Bool.and_false, Bool.true_and,
      Bool.and_true, if_pos hheld]
    rfl
  rw [hr]
  refine ⟨?_, ?_, rfl, rfl, rfl, rfl, rfl, rfl, rfl, rfl, ?_⟩
  · simp [CtrlState.setAmpArr, List.getD_eq_getElem?_getD,
      List.getElem?_set_self, hk]
  · intro j hj
    simp [CtrlState.setAmpArr, List.getD_eq_getElem?_getD,
      List.getElem?_set_ne (Ne.symm hj)]
  · exact ⟨rfl, rfl⟩

theorem C6_hold_amplitude_b_individual_witness :
    (tickButtonAmplitudeB true 2 1 (fun _ => 50) 3 ⟨true, 1/2, false, false⟩
        ⟨.individual, 2, .b, 0⟩
        ⟨[10, 11, 12], [20, 21, 22], [50, 50, 50], [50, 50, 50],
         [0, 0, 0], [0, 0, 0], [[], [], []], [[], [], []]⟩).2.2.1.amplitude_b.getD 2 0 =
      (fun _ => (50 : ℚ)) 2 ∧
    (tickButtonAmplitudeB true 2 1 (fun _ => 50) 3 ⟨true, 1/2, false, false⟩
        ⟨.individual, 2, .b, 0⟩
        ⟨[10, 11, 12], [20, 21, 22], [50, 50, 50], [50, 50, 50],
         [0, 0, 0], [0, 0, 0], [[], [], []], [[], [], []]⟩).2.1 =
      ⟨.individual, 2, .b, 0⟩ :=
  ⟨(C6_hold_amplitude_b_individual 2 3 4 1 (fun _ => 50) 3
      ⟨true, 1/2, false, false⟩ ⟨.individual, 2, .b, 0⟩ _ rfl rfl
      (by norm_num) (by norm_num)).1,
   (C6_hold_amplitude_b_individual 2 3 4 1 (fun _ => 50) 3
      ⟨true, 1/2, false, false⟩ ⟨.individual, 2, .b, 0⟩ _ rfl rfl
      (by norm_num) (by norm_num)).2.2.2.2.2.2.2.2.2.1⟩

/-- C7 fails on the code: after an encoder harmonics rotation a slot
with amplitude 0 remains in the channel's harmonic list — it is
skipped when re-sending harmonics to the device but is not removed.
Concretely: rotating with delta −1 on an empty-channel list seeds the
default slots and clamps their amplitudes to 0, and both zero-amplitude
slots are present in `harmonics_a` on the next read. -/
theorem C7_zero_amplitude_slot_counterexample :
    (rotHarmonics ⟨.individual, 0, .a, 0⟩ 1 (-1)
        ⟨[50], [50], [50], [50], [0], [0], [[]], [[]]⟩).1.harmonics_a =
      [[⟨3, 0, 0⟩, ⟨5, 0, 0⟩]] ∧
    (⟨3, 0, 0⟩ : Harmonic).amplitude = 0 ∧
    (⟨3, 0, 0⟩ : Harmonic) ∈ ((rotHarmonics ⟨.individual, 0, .a, 0⟩ 1 (-1)
        ⟨[50], [50], [50], [50], [0], [0], [[]], [[]]⟩).1.harmonics_a.getD 0 []) := by
  have h : (rotHarmonics ⟨.individual, 0, .a, 0⟩ 1 (-1)
      ⟨[50], [50], [50], [50], [0], [0], [[]], [[]]⟩).1.harmonics_a =
      [[⟨3, 0, 0⟩, ⟨5, 0, 0⟩]] := by
    norm_num [rotHarmonics, rotHarmonicsOne, harmonicsPass, defaultHarmonics,
      update_harmonics_list, CtrlState.harm, CtrlState.setHarmArr, cmdList,
      clear_harmonics, add_harmonic, List.range_succ, max_def, min_def]
  refine ⟨h, rfl, ?_⟩
  rw [h]
  simp

/-- C7 amended: a zero-amplitude (or otherwise dead) slot is not
removed from the channel's list by a harmonics rotation; instead the
device is silenced for it: the per-channel command sequence starts by
clearing the channel's harmonics and re-adds only slots whose
amplitude is strictly positive, so no `add_harmonic` command with a
non-positive amplitude is ever emitted. -/
theorem C7_dead_slots_silenced_not_removed (ch : Chan) (delta_val : ℚ)
    (hlist : List Harmonic) :
    (rotHarmonicsOne ch delta_val hlist).2.head? =
      some (.clearHarmonics ch) ∧
    (∀ o : ℤ, ∀ p q : ℚ,
      DevCmd.addHarmonic ch o p q ∈ (rotHarmonicsOne ch delta_val hlist).2 →
        0 < p) := by
  constructor
  · rfl
  · intro o p q hmem
    unfold rotHarmonicsOne at hmem
    simp only [cmdList, clear_harmonics, List.cons_append, List.nil_append,
      List.mem_cons] at hmem
    rcases hmem with hmem | hmem
    · cases hmem
    · rw [List.mem_flatMap] at hmem
      obtain ⟨h, hh, hmem⟩ := hmem
      rw [List.mem_filter] at hh
      have hpos : 0 < h.amplitude := by
        have := hh.2
        simpa using this
      unfold add_harmonic at hmem
      by_cases hc1 : h.order < 3 ∨ h.order % 2 = 0
      · rw [if_pos hc1] at hmem
        cases hmem
      · rw [if_neg hc1] at hmem
        by_cases hc2 : 0 ≤ h.amplitude ∧ h.amplitude ≤ 100
        · rw [if_neg (not_not_intro hc2)] at hmem
          by_cases hc3 : -360 ≤ h.phase ∧ h.phase ≤ 360
          · rw [if_neg (not_not_intro hc3)] at hmem
            simp only [cmdList] at hmem
            cases hmem with
            | head => exact hpos
            | tail _ hm => cases hm
          · rw [if_pos hc3] at hmem
            cases hmem
        · rw [if_pos hc2] at hmem
          cases hmem

theorem C7_dead_slots_silenced_not_removed_witness :
    (rotHarmonicsOne .a 5 [⟨3, 40, 0⟩]).2.head? =
      some (.clearHarmonics .a) ∧ (0 : ℚ) < 45 :=
  ⟨(C7_dead_slots_silenced_not_removed .a 5 [⟨3, 40, 0⟩]).1,
   (C7_dead_slots_silenced_not_removed .a 5 [⟨3, 40, 0⟩]).2 3 45 0
     (by norm_num [rotHarmonicsOne, harmonicsPass, update_harmonics_list,
       cmdList, clear_harmonics, add_harmonic, List.range_succ,
       max_def, min_def])⟩

/-- C8: an external queue command `set_amplitude` / `set_frequency` /
`set_phase` naming a valid synth goes through the same `SynthInterface`
bound checks as encoder-driven changes (the shared `set_amplitude`,
`set_frequency`, `set_phase` validators); a value violating the bound
is rejected with the in-memory state unchanged and no device traffic,
and an in-bounds value updates exactly the named synth's field. -/
theorem C8_queue_same_bounds (cmd : QCmd) (synths : List QSynth)
    (hid : 0 ≤ cmd.synth_id) (hlt : cmd.synth_id < synths.length) :
    (cmd.command = .setAmplitude →
      (¬ (0 ≤ cmd.value ∧ cmd.value ≤ 100) →
        processQueueCmd cmd synths = (synths, [])) ∧
      ((0 ≤ cmd.value ∧ cmd.value ≤ 100) →
        (processQueueCmd cmd synths).1 = synths.set cmd.synth_id.toNat
          ((synths.getD cmd.synth_id.toNat QSynth.default).setAmpQ
            cmd.channel cmd.value))) ∧
    (cmd.command = .setFrequency →
      (¬ (20 ≤ cmd.value ∧ cmd.value ≤ 8000) →
        processQueueCmd cmd synths = (synths, [])) ∧
      ((20 ≤ cmd.value ∧ cmd.value ≤ 8000) →
        (processQueueCmd cmd synths).1 = synths.set cmd.synth_id.toNat
          ((synths.getD cmd.synth_id.toNat QSynth.default).setFreqQ
            cmd.channel cmd.value))) ∧
    (cmd.command = .setPhase →
      (¬ (-360 ≤ cmd.value ∧ cmd.value ≤ 360) →
        processQueueCmd cmd synths = (synths, [])) ∧
      ((-360 ≤ cmd.value ∧ cmd.value ≤ 360) →
        (processQueueCmd cmd synths).1 = synths.set cmd.synth_id.toNat
          ((synths.getD cmd.synth_id.toNat QSynth.default).setPhaseQ
            cmd.channel cmd.value))) := by
  obtain ⟨sid, qc, ch, v⟩ := cmd
  simp only at hid hlt ⊢
  have hcond : 0 ≤ sid ∧ sid < (synths.length : ℤ) := ⟨hid, hlt⟩
  refine ⟨?_, ?_, ?_⟩ <;> rintro rfl
  · constructor
    · intro hbad
      simp only [processQueueCmd, set_amplitude, if_pos hcond, if_neg hbad]
    · intro hgood
      simp only [processQueueCmd, set_amplitude, if_pos hcond, if_pos hgood]
  · constructor
    · intro hbad
      simp only [processQueueCmd, set_frequency, if_pos hcond, if_neg hbad]
    · intro hgood
      simp only [processQueueCmd, set_frequency, if_pos hcond, if_pos hgood]
  · constructor
    · intro hbad
      simp only [processQueueCmd, set_phase, if_pos hcond, if_neg hbad]
    · intro hgood
      simp only [processQueueCmd, set_phase, if_pos hcond, if_pos hgood]

theorem C8_queue_same_bounds_witness :
    processQueueCmd ⟨1, .setAmplitude, .a, 150⟩
        [QSynth.default, QSynth.default] =
      ([QSynth.default, QSynth.default], []) ∧
    (processQueueCmd ⟨1, .setAmplitude, .a, 75⟩
        [QSynth.default, QSynth.default]).1 =
      [QSynth.default, QSynth.default].set 1
        (([QSynth.default, QSynth.default].getD 1 QSynth.default).setAmpQ
          .a 75) :=
  ⟨((C8_queue_same_bounds ⟨1, .setAmplitude, .a, 150⟩
      [QSynth.default, QSynth.default] (by norm_num) (by norm_num)).1
      rfl).1 (by norm_num),
   ((C8_queue_same_bounds ⟨1, .setAmplitude, .a, 75⟩
      [QSynth.default, QSynth.default] (by norm_num) (by norm_num)).1
      rfl).2 (by norm_num)⟩

/-- C10: in `INDIVIDUAL` mode an amplitude or phase rotation stores
the clamped value `clamp(old + delta)` for the targeted synth/channel
(bounds `[0, 100]` for amplitude, `[-360, 360]` for phase), the stored
value always lies within the bound afterwards, and the operation is
never rejected: a device command is always issued. -/
theorem C10_individual_rotation_clamped (ch : Chan) (sel : FuncSel)
    (num_synths : ℕ) (delta : ℚ) (s : CtrlState)
    (hmode : sel.mode = .individual)
    (hkA : sel.active_synth < (s.amp ch).length)
    (hkP : sel.active_synth < (s.ph sel.active_channel).length) :
    (((rotAmplitude ch sel num_synths delta s).1.amp ch).getD
        sel.active_synth 0 =
      max 0 (min 100 ((s.amp ch).getD sel.active_synth 0 + delta)) ∧
     0 ≤ ((rotAmplitude ch sel num_synths delta s).1.amp ch).getD
        sel.active_synth 0 ∧
     ((rotAmplitude ch sel num_synths delta s).1.amp ch).getD
        sel.active_synth 0 ≤ 100 ∧
     (rotAmplitude ch sel num_synths delta s).2 ≠ []) ∧
    (((rotPhase sel num_synths delta s).1.ph sel.active_channel).getD
        sel.active_synth 0 =
      max (-360) (min 360
        ((s.ph sel.active_channel).getD sel.active_synth 0 + delta)) ∧
     -360 ≤ ((rotPhase sel num_synths delta s).1.ph
        sel.active_channel).getD sel.active_synth 0 ∧
     ((rotPhase sel num_synths delta s).1.ph sel.active_channel).getD
        sel.active_synth 0 ≤ 360 ∧
     (rotPhase sel num_synths delta s).2 ≠ []) := by
  obtain ⟨mode, asyn, achan, stime⟩ := sel
  simp only at hmode hkA hkP ⊢
  subst hmode
  have hca := @clamp_mem 0 100
    ((s.amp ch).getD asyn 0 + delta) (by norm_num)
  have hcp := @clamp_mem (-360) 360
    ((s.ph achan).getD asyn 0 + delta) (by norm_num)
  constructor
  · simp only [rotAmplitude, set_amplitude_round2_ok ch hca.1 hca.2]
    rw [amp_setAmpArr]
    have hget : ((s.amp ch).set asyn
        (max 0 (min 100 ((s.amp ch).getD asyn 0 + delta)))).getD asyn 0 =
        max 0 (min 100 ((s.amp ch).getD asyn 0 + delta)) := by
      simp [List.getD_eq_getElem?_getD, List.getElem?_set_self, hkA]
    rw [hget]
    exact ⟨rfl, hca.1, hca.2, List.cons_ne_nil _ _⟩
  · simp only [rotPhase, set_phase_round2_ok achan hcp.1 hcp.2]
    rw [ph_setPhArr]
    have hget : ((s.ph achan).set asyn
        (max (-360) (min 360 ((s.ph achan).getD asyn 0 + delta)))).getD asyn 0 =
        max (-360) (min 360 ((s.ph achan).getD asyn 0 + delta)) := by
      simp [List.getD_eq_getElem?_getD, List.getElem?_set_self, hkP]
    rw [hget]
    exact ⟨rfl, hcp.1, hcp.2, List.cons_ne_nil _ _⟩

theorem C10_individual_rotation_clamped_witness :
    ((rotAmplitude .a ⟨.individual, 0, .b, 0⟩ 1 60
        ⟨[50], [50], [50], [50], [0], [0], [[]], [[]]⟩).1.amp .a).getD 0 0 =
      max 0 (min 100 (((⟨[50], [50], [50], [50], [0], [0], [[]], [[]]⟩ :
        CtrlState).amp .a).getD 0 0 + 60)) ∧
    ((rotPhase ⟨.individual, 0, .b, 0⟩ 1 60
        ⟨[50], [50], [50], [50], [0], [0], [[]], [[]]⟩).1.ph .b).getD 0 0 =
      max (-360) (min 360 (((⟨[50], [50], [50], [50], [0], [0], [[]], [[]]⟩ :
        CtrlState).ph .b).getD 0 0 + 60)) :=
  ⟨((C10_individual_rotation_clamped .a ⟨.individual, 0, .b, 0⟩ 1 60 _
      rfl (by norm_num [CtrlState.amp]) (by norm_num [CtrlState.ph])).1).1,
   ((C10_individual_rotation_clamped .a ⟨.individual, 0, .b, 0⟩ 1 60 _
      rfl (by norm_num [CtrlState.amp]) (by norm_num [CtrlState.ph])).2).1⟩

/-- C9: `save_state` followed by `load_state` reproduces the
`SynthStateManager` state exactly (no rounding is applied on this
path), for any state whose recorded `num_synths` agrees with the
length of its synth list (which `load_state` itself re-establishes on
every load, synth_state.py:93). -/
theorem C9_save_load_roundtrip (defaults : List QSynth) (m : MgrSnapshot)
    (h : m.num_synths = m.synths.length) :
    load_state defaults (save_state m) = m := by
  cases m with
  | mk n syn =>
    simp only [MgrSnapshot.mk.injEq] at h
    simp [save_state, load_state, h]

theorem C9_witness :
    load_state [] (save_state ⟨1, [QSynth.default]⟩) = ⟨1, [QSynth.default]⟩ :=
  C9_save_load_roundtrip [] ⟨1, [QSynth.default]⟩ (by decide)

end NHP
